import Mathlib

/-!
# dns-resolver: the iterative resolution engine of `pkg/dns/resolver.go`

A shallow embedding of `dnsQuery`, `outgoingDnsQuery`, `handlePacket` and
`getRootServers`.

* The wire codec (`dnsmessage`), the random source and the sockets are not part
  of the repository; they are the fields of `Net`, an arbitrary but fixed
  environment.  `outgoingDnsQuery net` is then the upstream responder: a
  function from a server list and a question to a response or an error.
* `dnsQuery` calls itself for delegate names without glue, without any bound,
  so the embedding carries a fuel that counts the permitted nesting depth of
  `dnsQuery` invocations; `Result.outOfFuel` is the outcome of a run that
  nests deeper.
* Every run also yields the sequence of calls it made (`Event`), so that
  statements such as "no further query is sent" can be made.
-/

namespace DnsResolver

/-! ## Data model -/

/-- Go `error`, reduced to its message. -/
abbrev Error := String

/-- Go `net.IP`, a byte slice. -/
abbrev IP := List Nat

/-- Bytes on the wire. -/
abbrev Bytes := List Nat

/-- The constant `dnsmessage.TypeA`. -/
def TypeA : Nat := 1

/-- The constant `dnsmessage.TypeNS`. -/
def TypeNS : Nat := 2

/-- The constant `dnsmessage.ClassINET`. -/
def ClassINET : Nat := 1

/-- The constant `dnsmessage.RCodeSuccess`. -/
def RCodeSuccess : Nat := 0

/-- The constant `dnsmessage.RCodeServerFailure`. -/
def RCodeServerFailure : Nat := 2

/-- The struct `dnsmessage.Header`; the defaults are Go's zero values. -/
structure Header where
  ID : Nat := 0
  Response : Bool := false
  OpCode : Nat := 0
  Authoritative : Bool := false
  Truncated : Bool := false
  RecursionDesired : Bool := false
  RecursionAvailable : Bool := false
  AuthenticData : Bool := false
  CheckingDisabled : Bool := false
  RCode : Nat := 0
deriving DecidableEq, Repr

/-- The struct `dnsmessage.Question`; `Name` is `Name.String()`, `Typ` is `Type`. -/
structure Question where
  Name : String
  Typ : Nat
  Class : Nat
deriving DecidableEq, Repr

/-- The body of a resource record.  The parser chooses the Go type of the body
from the header's type, so a record has `Header.Type == TypeA` exactly when its
body is an `*AResource`, and `TypeNS` exactly when it is an `*NSResource`: the
test on `Header.Type` followed by the type assertion on `Body` is a match on
this constructor. -/
inductive ResourceBody where
  | A (a : IP)
  | NS (ns : String)
  | Other (type : Nat) (data : Bytes)
deriving DecidableEq, Repr

/-- The struct `dnsmessage.Resource`, its header flattened; `Name` is
`Header.Name.String()`. -/
structure Resource where
  Name : String
  Class : Nat
  TTL : Nat
  Body : ResourceBody
deriving DecidableEq, Repr

/-- The struct `dnsmessage.Message`; the defaults are Go's zero values. -/
structure Message where
  Header : Header := {}
  Questions : List Question := []
  Answers : List Resource := []
  Authorities : List Resource := []
  Additionals : List Resource := []
deriving DecidableEq, Repr

/-- A `dnsmessage.Parser` positioned behind the question section: what each of
the three remaining section readers returns. -/
structure Parser where
  AllAnswers : Except Error (List Resource)
  AllAuthorities : Except Error (List Resource)
  AllAdditionals : Except Error (List Resource)

/-- A datagram read from an upstream server, as the parser sees it. -/
structure Reply where
  header : Header
  AllQuestions : Except Error (List Question)
  SkipAllQuestions : Except Error Unit
  parser : Parser

/-- The environment of the resolver: random source, codec and sockets. -/
structure Net where
  /-- `rand.Int(rand.Reader, max)`: a draw from `[0, max)`, or an error. -/
  randInt : (max : Nat) → Except Error (Fin max)
  /-- `Message.Pack`. -/
  pack : Message → Except Error Bytes
  /-- Whether `net.Dial("udp", server + ":53")` succeeds. -/
  dial : IP → Bool
  /-- `conn.Write`, the read of one datagram and `Parser.Start` on it, on the
  connection to the given server. -/
  exchange : IP → Bytes → Except Error Reply
  /-- `Parser.Start` on an inbound packet. -/
  start : Bytes → Except Error Header
  /-- `Parser.Question` on an inbound packet, after `start`. -/
  question : Bytes → Except Error Question
  /-- `pc.WriteTo`. -/
  writeTo : Bytes → String → Except Error Unit

/-- What a call of `dnsQuery` comes to. -/
inductive Result where
  | ok (m : Message)
  | err (e : Error)
  | outOfFuel
deriving DecidableEq, Repr

/-- The calls a run makes: `query` is a call of `outgoingDnsQuery`, logged
whether or not it gets as far as sending, and `subResolve` is a nested call of
`dnsQuery` on the root servers.  `depth` is the nesting depth of the `dnsQuery`
invocation that makes the call: 0 for the invocation the run starts with. -/
inductive Event where
  | query (depth : Nat) (servers : List IP) (question : Question)
  | subResolve (depth : Nat) (question : Question)
deriving DecidableEq, Repr

/-- The events of a nested invocation, seen from its caller. -/
def Event.lift : Event → Event
  | .query d s q => .query (d + 1) s q
  | .subResolve d q => .subResolve (d + 1) q

/-- The depth of an event. -/
def Event.depth : Event → Nat
  | .query d _ _ => d
  | .subResolve d _ => d

/-- The server lists of the queries the invocation a run starts with issues
itself (those of depth 0), in order. -/
def topLevelQueries : List Event → List (List IP)
  | [] => []
  | .query 0 servers _ :: rest => servers :: topLevelQueries rest
  | _ :: rest => topLevelQueries rest

/-- A run of `dnsQuery`: its result and the calls it made, in order. -/
structure Run where
  result : Result
  trace : List Event
deriving DecidableEq, Repr

/-- How one pass through the body of the loop of `dnsQuery` ends. -/
inductive Hop where
  | ret (r : Result)
  | next (servers : List IP)
deriving DecidableEq, Repr

/-! ## `getRootServers` -/

/-- The constant `ROOT_SERVERS`. -/
def ROOT_SERVERS : String :=
  "198.41.0.4,199.9.14.201,192.33.4.12,199.7.91.13,192.203.230.10,192.5.5.241,192.112.36.4,198.97.190.53"

/-- The function `strings.Split` for a separator of one character, on lists of
characters. -/
def Split (sep : Char) : List Char → List (List Char)
  | [] => [[]]
  | c :: rest =>
    if c = sep then [] :: Split sep rest
    else
      match Split sep rest with
      | [] => [[c]]
      | field :: fields => (c :: field) :: fields

/-- The value of a run of decimal digits. -/
def decimal (digits : List Char) : Nat :=
  digits.foldl (fun n c => 10 * n + (c.toNat - 48)) 0

/-- Whether a field of a dotted quad is an octet as `net.ParseIP` accepts it:
decimal digits only, at least one, no leading zero, value at most 255. -/
def isOctet (field : List Char) : Bool :=
  !field.isEmpty && field.all (fun c => decide (48 ≤ c.toNat) && decide (c.toNat ≤ 57)) &&
    (field.length == 1 || field.head? != some '0') && decide (decimal field ≤ 255)

/-- The prefix of an IPv4 address in the 16-byte form of `net.IP`. -/
def v4InV6Prefix : List Nat := [0, 0, 0, 0, 0, 0, 0, 0, 0, 0, 255, 255]

/-- The function `net.ParseIP` on text without a colon: the 16-byte form of a
dotted quad, and nil (the empty slice) for any other text. -/
def ParseIP (s : List Char) : IP :=
  let fields := Split '.' s
  if fields.length == 4 && fields.all isOctet then v4InV6Prefix ++ fields.map decimal
  else []

/-- The function `getRootServers`. -/
def getRootServers : List IP :=
  (Split ',' ROOT_SERVERS.toList).map ParseIP

/-! ## `outgoingDnsQuery` -/

/-- The value `max := ^uint16(0)`. -/
def maxUint16 : Nat := 2 ^ 16 - 1

/-- The conversion `int64(max)` of a `uint16`. -/
def int64OfUint16 (x : Nat) : Nat := x % 2 ^ 16

/-- The conversion `uint16(randomNumber.Int64())` of a non-negative big
integer: the low 64 bits, then the low 16 bits. -/
def uint16OfBig (r : Nat) : Nat := (r % 2 ^ 64) % 2 ^ 16

/-- The query message `outgoingDnsQuery` builds from its random draw. -/
def queryMessage (randomNumber : Nat) (question : Question) : Message :=
  { Header :=
      { ID := uint16OfBig randomNumber
        OpCode := 0
        Response := false
        AuthenticData := false
        RecursionDesired := false }
    Questions := [question] }

/-- The loop over `servers` that dials: the first server whose dial succeeds. -/
def dialFirst (net : Net) : List IP → Option IP
  | [] => none
  | server :: rest => if net.dial server then some server else dialFirst net rest

/-- The function `outgoingDnsQuery`. -/
def outgoingDnsQuery (net : Net) (servers : List IP) (question : Question) :
    Except Error (Parser × Header) :=
  match net.randInt (int64OfUint16 maxUint16) with
  | .error e => .error e
  | .ok randomNumber =>
    let message := queryMessage randomNumber.val question
    match net.pack message with
    | .error e => .error ("Pack error: " ++ e)
    | .ok buf =>
      match dialFirst net servers with
      | none => .error "no servers available"
      | some conn =>
        match net.exchange conn buf with
        | .error e => .error e
        | .ok reply =>
          match reply.AllQuestions with
          | .error e => .error ("all questions error: " ++ e)
          | .ok questions =>
            if questions.length ≠ message.Questions.length then
              .error "answer packet doesnt have the same amount of questions"
            else
              match reply.SkipAllQuestions with
              | .error e => .error e
              | .ok _ => .ok (reply.parser, reply.header)

/-! ## `dnsQuery` -/

/-- The slice `nameServers`: one slot for each authority record, holding the
delegate hostname of an NS record and the empty string for any other. -/
def nameServersOf (authorities : List Resource) : List String :=
  authorities.map fun authority =>
    match authority.Body with
    | .NS ns => ns
    | _ => ""

/-- The inner loop over `nameServers` for one additional A record. -/
def matchNameServers (name : String) (a : IP) :
    List String → Bool × List IP → Bool × List IP
  | [], st => st
  | nameServer :: rest, st =>
    if nameServer == name then matchNameServers name a rest (true, st.2 ++ [a])
    else matchNameServers name a rest st

/-- The loop over `additionals`, from `newResolverServersFound = false` and
`servers = []` on. -/
def scanAdditionals (nameServers : List String) :
    List Resource → Bool × List IP → Bool × List IP
  | [], st => st
  | additional :: rest, st =>
    match additional.Body with
    | .A a => scanAdditionals nameServers rest (matchNameServers additional.Name a nameServers st)
    | _ => scanAdditionals nameServers rest st

/-- The addresses of the A records among `answers`, in order. -/
def aAddresses : List Resource → List IP
  | [] => []
  | answer :: rest =>
    match answer.Body with
    | .A a => a :: aAddresses rest
    | _ => aAddresses rest

/-- The loop over `nameServers` that resolves delegate names, entered with
`newResolverServersFound = false`; `sub` is the nested call
`dnsQuery(getRootServers(), ·)`.  `MustNewName` does not fail on a slot: a slot
is the string of a parsed name, or empty, and so within the length a name
allows. -/
def resolveNameServers (sub : Question → Run) :
    List String → Bool → List IP → Hop × List Event
  | [], _, servers => (.next servers, [])
  | nameServer :: rest, newResolverServersFound, servers =>
    if !newResolverServersFound then
      let question : Question := { Name := nameServer, Typ := TypeA, Class := ClassINET }
      let run := sub question
      let events := Event.subResolve 0 question :: run.trace.map Event.lift
      match run.result with
      | .err e => (.ret (.err e), events)
      | .outOfFuel => (.ret .outOfFuel, events)
      | .ok response =>
        let r := resolveNameServers sub rest true (servers ++ aAddresses response.Answers)
        (r.1, events ++ r.2)
    else resolveNameServers sub rest newResolverServersFound servers

/-- One pass through the body of the `for` loop of `dnsQuery`. -/
def iteration (net : Net) (sub : Question → Run) (question : Question)
    (servers : List IP) : Hop × List Event :=
  let sent := Event.query 0 servers question
  match outgoingDnsQuery net servers question with
  | .error e => (.ret (.err e), [sent])
  | .ok (dnsAnswer, header) =>
    match dnsAnswer.AllAnswers with
    | .error e => (.ret (.err e), [sent])
    | .ok parsedAnswers =>
      if header.Authoritative then
        (.ret (.ok { Header := { Response := true, RCode := RCodeSuccess }
                     Answers := parsedAnswers }), [sent])
      else
        match dnsAnswer.AllAuthorities with
        | .error e => (.ret (.err e), [sent])
        | .ok authorities =>
          if authorities.length = 0 then
            (.ret (.ok { Header := { RCode := RCodeServerFailure } }), [sent])
          else
            let nameServers := nameServersOf authorities
            match dnsAnswer.AllAdditionals with
            | .error e => (.ret (.err e), [sent])
            | .ok additionals =>
              let st := scanAdditionals nameServers additionals (false, [])
              if !st.1 then
                let r := resolveNameServers sub nameServers st.1 st.2
                (r.1, sent :: r.2)
              else (.next st.2, [sent])

/-- The `for` loop of `dnsQuery` with `n` passes left (`n = 3 - i`), and the
`return` behind it. -/
def forLoop (body : List IP → Hop × List Event) : Nat → List IP → Run
  | 0, _ => ⟨.ok { Header := { RCode := RCodeServerFailure } }, []⟩
  | n + 1, servers =>
    match body servers with
    | (.ret r, events) => ⟨r, events⟩
    | (.next servers', events) =>
      let run := forLoop body n servers'
      ⟨run.result, events ++ run.trace⟩

/-- The function `dnsQuery`; `fuel` is the nesting depth allowed. -/
def dnsQuery (net : Net) : Nat → List IP → Question → Run
  | 0, _, _ => ⟨.outOfFuel, []⟩
  | fuel + 1, servers, question =>
    forLoop (iteration net (fun q => dnsQuery net fuel getRootServers q) question) 3 servers

/-- The state at the head of the loop of `dnsQuery` after `k` passes that all
ended by going round again: the server list, and the calls made so far. -/
def hopsCompleted (body : List IP → Hop × List Event) :
    Nat → List IP → Option (List IP × List Event)
  | 0, servers => some (servers, [])
  | k + 1, servers =>
    match body servers with
    | (.ret _, _) => none
    | (.next servers', events) =>
      match hopsCompleted body k servers' with
      | none => none
      | some (s, later) => some (s, events ++ later)

/-- The body of the loop of `dnsQuery net (fuel + 1) · question`. -/
def body (net : Net) (fuel : Nat) (question : Question) : List IP → Hop × List Event :=
  iteration net (fun q => dnsQuery net fuel getRootServers q) question

/-! ## `handlePacket` -/

/-- What a call of `handlePacket` comes to. -/
inductive Handled where
  | wrote (response : Message) (responseBuffer : Bytes) (addr : String)
  | failed (e : Error)
  | outOfFuel
deriving DecidableEq, Repr

/-- The function `handlePacket`. -/
def handlePacket (net : Net) (fuel : Nat) (addr : String) (buf : Bytes) : Handled :=
  match net.start buf with
  | .error e => .failed ("error parsing packet: " ++ e)
  | .ok header =>
    match net.question buf with
    | .error e => .failed e
    | .ok question =>
      match (dnsQuery net fuel getRootServers question).result with
      | .outOfFuel => .outOfFuel
      | .err e => .failed e
      | .ok response =>
        let response := { response with Header := { response.Header with ID := header.ID } }
        match net.pack response with
        | .error e => .failed e
        | .ok responseBuffer =>
          match net.writeTo responseBuffer addr with
          | .error e => .failed e
          | .ok _ => .wrote response responseBuffer addr

/-- The function `HandlePacket`. -/
def HandlePacket (net : Net) (fuel : Nat) (addr : String) (buf : Bytes) : Handled :=
  match handlePacket net fuel addr buf with
  | .failed e => .failed ("error handling packet: " ++ e)
  | r => r

/-! ## Environments used to evaluate the functions on concrete inputs -/

/-- The bytes a sample codec packs a message to: the characters of the names of
its questions. -/
def sampleWire (m : Message) : Bytes :=
  m.Questions.flatMap fun q => q.Name.toList.map Char.toNat

/-- The bytes of a name under `sampleWire`. -/
def nameBytes (name : String) : Bytes := name.toList.map Char.toNat

/-- An environment in which nothing local fails: the draw is 0, every dial
succeeds, a message is packed by `sampleWire` unless the name of a question
lacks the final dot, an inbound packet carries its
transaction id in its first byte and asks for the A record of `example.com.`;
the upstream servers are the given function. -/
def sampleNet (exchange : IP → Bytes → Except Error Reply) : Net :=
  { randInt := fun max =>
      match max with
      | 0 => .error "empty range"
      | n + 1 => .ok ⟨0, Nat.succ_pos n⟩
    pack := fun m =>
      if m.Questions.any (fun q => q.Name.toList.getLast? != some '.') then
        .error "packing Question: Name: name is not in canonical format (it must end with a .)"
      else .ok (sampleWire m)
    dial := fun _ => true
    exchange := exchange
    start := fun buf => .ok { ID := buf.headD 0 }
    question := fun _ => .ok { Name := "example.com.", Typ := TypeA, Class := ClassINET }
    writeTo := fun _ _ => .ok () }

/-- A well-formed upstream datagram with the given flag and sections; it
carries one question. -/
def sampleReply (authoritative : Bool) (answers authorities additionals : List Resource) :
    Reply :=
  { header := { Response := true, Authoritative := authoritative }
    AllQuestions := .ok [{ Name := ".", Typ := TypeA, Class := ClassINET }]
    SkipAllQuestions := .ok ()
    parser :=
      { AllAnswers := .ok answers
        AllAuthorities := .ok authorities
        AllAdditionals := .ok additionals } }

/-- An A record. -/
def recA (name : String) (a : IP) : Resource :=
  { Name := name, Class := ClassINET, TTL := 300, Body := .A a }

/-- An NS record. -/
def recNS (name : String) (ns : String) : Resource :=
  { Name := name, Class := ClassINET, TTL := 300, Body := .NS ns }

/-- An SOA record (type 6), its data left out. -/
def recSOA (name : String) : Resource :=
  { Name := name, Class := ClassINET, TTL := 300, Body := .Other 6 [] }

/-- The question for the A record of `example.com.`. -/
def sampleQuestion : Question :=
  { Name := "example.com.", Typ := TypeA, Class := ClassINET }

/-- Every server answers authoritatively with one A record and one CNAME-like
record of another type. -/
def authoritativeNet : Net :=
  sampleNet fun _ _ =>
    .ok (sampleReply true
      [recA "example.com." [93, 184, 216, 34], recSOA "example.com."] [] [])

/-- Every server answers without the authoritative flag and without authority
records, but with an answer and an additional record. -/
def lameNet : Net :=
  sampleNet fun _ _ =>
    .ok (sampleReply false [recA "example.com." [1, 2, 3, 4]] [] [recA "x." [5, 6, 7, 8]])

/-- A chain of referrals for `example.com.`: the first root server refers to
`a.gtld.` with glue 10.0.0.1, that server refers to `ns1.example.com.` with glue
10.0.0.2, and that server refers to `ns.other.net.` with the additional records
`third`.  No server answers any other question: the read fails. -/
def chainNet (third : List Resource) : Net :=
  sampleNet fun ip buf =>
    if buf = nameBytes "example.com." then
      if ip = v4InV6Prefix ++ [198, 41, 0, 4] then
        .ok (sampleReply false [] [recNS "com." "a.gtld."] [recA "a.gtld." [10, 0, 0, 1]])
      else if ip = [10, 0, 0, 1] then
        .ok (sampleReply false [] [recNS "example.com." "ns1.example.com."]
          [recA "ns1.example.com." [10, 0, 0, 2]])
      else if ip = [10, 0, 0, 2] then
        .ok (sampleReply false [] [recNS "example.com." "ns.other.net."] third)
      else .error "read udp: connection refused"
    else .error "read udp: connection refused"

/-- Every server refers `example.com.` to `a.ns.` and `b.ns.` without glue, and
answers authoritatively for the A records of these two names. -/
def twoNsNet : Net :=
  sampleNet fun _ buf =>
    if buf = nameBytes "example.com." then
      .ok (sampleReply false []
        [recNS "example.com." "a.ns.", recNS "example.com." "b.ns."] [])
    else if buf = nameBytes "a.ns." then
      .ok (sampleReply true [recA "a.ns." [10, 0, 0, 1]] [] [])
    else if buf = nameBytes "b.ns." then
      .ok (sampleReply true [recA "b.ns." [10, 0, 0, 2]] [] [])
    else .error "read udp: connection refused"

/-- Every server refers `example.com.` to `a.ns.` without glue, and answers the
question for `a.ns.` without the authoritative flag and without any record. -/
def lameDelegationNet : Net :=
  sampleNet fun _ buf =>
    if buf = nameBytes "example.com." then
      .ok (sampleReply false [] [recNS "example.com." "a.ns."] [])
    else .ok (sampleReply false [] [] [])

/-- Every server answers every question with a referral to `ns.example.` that
carries no additional records; nothing local fails. -/
def referralNet : Net :=
  { randInt := fun max =>
      match max with
      | 0 => .error "empty range"
      | n + 1 => .ok ⟨0, Nat.succ_pos n⟩
    pack := fun m => .ok (sampleWire m)
    dial := fun _ => true
    exchange := fun _ _ => .ok (sampleReply false [] [recNS "example." "ns.example."] [])
    start := fun buf => .ok { ID := buf.headD 0 }
    question := fun _ => .ok { Name := "example.com.", Typ := TypeA, Class := ClassINET }
    writeTo := fun _ _ => .ok () }

/-- The question `dnsQuery` asks for the delegate of `referralNet`. -/
def delegateQuestion : Question :=
  { Name := "ns.example.", Typ := TypeA, Class := ClassINET }

/-! ## General facts about the loop -/

theorem getRootServers_eq :
    getRootServers =
      [v4InV6Prefix ++ [198, 41, 0, 4], v4InV6Prefix ++ [199, 9, 14, 201],
       v4InV6Prefix ++ [192, 33, 4, 12], v4InV6Prefix ++ [199, 7, 91, 13],
       v4InV6Prefix ++ [192, 203, 230, 10], v4InV6Prefix ++ [192, 5, 5, 241],
       v4InV6Prefix ++ [192, 112, 36, 4], v4InV6Prefix ++ [198, 97, 190, 53]] := by
  decide

theorem dnsQuery_succ (net : Net) (fuel : Nat) (servers : List IP) (question : Question) :
    dnsQuery net (fuel + 1) servers question = forLoop (body net fuel question) 3 servers := rfl

theorem forLoop_next (f : List IP → Hop × List Event) (n : Nat) (servers servers' : List IP)
    (events : List Event) (h : f servers = (.next servers', events)) :
    forLoop f (n + 1) servers =
      ⟨(forLoop f n servers').result, events ++ (forLoop f n servers').trace⟩ := by
  simp [forLoop, h]

theorem forLoop_of_hopsCompleted (f : List IP → Hop × List Event) :
    ∀ (k n : Nat) (servers s : List IP) (pre : List Event),
      hopsCompleted f k servers = some (s, pre) →
      forLoop f (k + n) servers =
        ⟨(forLoop f n s).result, pre ++ (forLoop f n s).trace⟩ := by
  intro k
  induction k with
  | zero =>
    intro n servers s pre h
    simp only [hopsCompleted, Option.some.injEq, Prod.mk.injEq] at h
    obtain ⟨rfl, rfl⟩ := h
    simp
  | succ k ih =>
    intro n servers s pre h
    have hn : k + 1 + n = (k + n) + 1 := by omega
    rw [hn]
    unfold hopsCompleted at h
    rcases hb : f servers with ⟨hop, events⟩
    rw [hb] at h
    cases hop with
    | ret r => simp at h
    | next servers' =>
      simp only at h
      rcases hk : hopsCompleted f k servers' with _ | ⟨s', later⟩
      · rw [hk] at h; simp at h
      · rw [hk] at h
        simp only [Option.some.injEq, Prod.mk.injEq] at h
        obtain ⟨rfl, rfl⟩ := h
        rw [forLoop_next f (k + n) servers servers' events hb, ih n servers' s' later hk]
        simp only [List.append_assoc]

theorem forLoop_ret (f : List IP → Hop × List Event) (n : Nat) (servers : List IP)
    (r : Result) (events : List Event) (h : f servers = (.ret r, events)) :
    forLoop f (n + 1) servers = ⟨r, events⟩ := by
  simp [forLoop, h]

/-- A pass that returns ends the run: what `dnsQuery` returns when the pass
entered after `k < 3` completed passes returns `r`. -/
theorem dnsQuery_of_ret (net : Net) (fuel : Nat) (servers : List IP) (question : Question)
    (k : Nat) (s : List IP) (pre : List Event) (r : Result) (events : List Event)
    (hk : k < 3)
    (hreach : hopsCompleted (body net fuel question) k servers = some (s, pre))
    (hret : body net fuel question s = (.ret r, events)) :
    dnsQuery net (fuel + 1) servers question = ⟨r, pre ++ events⟩ := by
  obtain ⟨n, hn⟩ : ∃ n, 3 = k + (n + 1) := ⟨2 - k, by omega⟩
  rw [dnsQuery_succ, hn, forLoop_of_hopsCompleted _ k (n + 1) servers s pre hreach,
    forLoop_ret _ n s r events hret]

/-! ## Fuel: a run that ends within its fuel is the same run with more fuel -/

theorem resolveNameServers_agree (sub sub' : Question → Run)
    (hsub : ∀ q, (sub q).result ≠ .outOfFuel → sub' q = sub q) :
    ∀ (nameServers : List String) (found : Bool) (servers : List IP),
      (resolveNameServers sub nameServers found servers).1 ≠ .ret .outOfFuel →
      resolveNameServers sub' nameServers found servers =
        resolveNameServers sub nameServers found servers := by
  intro nameServers
  induction nameServers with
  | nil => intro found servers _; rfl
  | cons nameServer rest ih =>
    intro found servers h
    cases found with
    | true =>
      simp only [resolveNameServers, Bool.not_true] at h ⊢
      exact ih true servers h
    | false =>
      simp only [resolveNameServers, Bool.not_false, if_true] at h ⊢
      cases hr : (sub { Name := nameServer, Typ := TypeA, Class := ClassINET }).result with
      | outOfFuel => rw [hr] at h; simp at h
      | err e =>
        have hq := hsub { Name := nameServer, Typ := TypeA, Class := ClassINET } (by rw [hr]; simp)
        rw [hq, hr]
      | ok response =>
        have hq := hsub { Name := nameServer, Typ := TypeA, Class := ClassINET } (by rw [hr]; simp)
        rw [hr] at h
        simp only at h
        rw [hq, hr]
        simp only
        rw [ih true _ h]

theorem iteration_agree (net : Net) (sub sub' : Question → Run) (question : Question)
    (hsub : ∀ q, (sub q).result ≠ .outOfFuel → sub' q = sub q) (servers : List IP)
    (h : (iteration net sub question servers).1 ≠ .ret .outOfFuel) :
    iteration net sub' question servers = iteration net sub question servers := by
  cases hq : outgoingDnsQuery net servers question with
  | error e => simp [iteration, hq]
  | ok pr =>
    obtain ⟨dnsAnswer, header⟩ := pr
    cases hans : dnsAnswer.AllAnswers with
    | error e => simp [iteration, hq, hans]
    | ok answers =>
      cases hauth : header.Authoritative with
      | true => simp [iteration, hq, hans, hauth]
      | false =>
        cases hauths : dnsAnswer.AllAuthorities with
        | error e => simp [iteration, hq, hans, hauth, hauths]
        | ok authorities =>
          by_cases hlen : authorities.length = 0
          · simp [iteration, hq, hans, hauth, hauths, hlen]
          · cases hadds : dnsAnswer.AllAdditionals with
            | error e => simp [iteration, hq, hans, hauth, hauths, hlen, hadds]
            | ok additionals =>
              cases hfound :
                (scanAdditionals (nameServersOf authorities) additionals (false, [])).1 with
              | true => simp [iteration, hq, hans, hauth, hauths, hlen, hadds, hfound]
              | false =>
                simp only [iteration, hq, hans, hauth, hauths, hlen, hadds, hfound] at h ⊢
                simp only [Bool.not_false, if_true, Bool.false_eq_true, if_false] at h ⊢
                rw [resolveNameServers_agree sub sub' hsub _ _ _ h]

theorem forLoop_agree (net : Net) (sub sub' : Question → Run) (question : Question)
    (hsub : ∀ q, (sub q).result ≠ .outOfFuel → sub' q = sub q) :
    ∀ (n : Nat) (servers : List IP),
      (forLoop (iteration net sub question) n servers).result ≠ .outOfFuel →
      forLoop (iteration net sub' question) n servers =
        forLoop (iteration net sub question) n servers := by
  intro n
  induction n with
  | zero => intro servers _; rfl
  | succ n ih =>
    intro servers h
    rcases hb : iteration net sub question servers with ⟨hop, events⟩
    cases hop with
    | ret r =>
      rw [forLoop_ret _ n servers r events hb] at h ⊢
      have hne : (iteration net sub question servers).1 ≠ .ret .outOfFuel := by
        rw [hb]
        intro he
        exact h (Hop.ret.inj he)
      have hb' := iteration_agree net sub sub' question hsub servers hne
      rw [hb] at hb'
      rw [forLoop_ret _ n servers r events hb']
    | next servers' =>
      rw [forLoop_next _ n servers servers' events hb] at h ⊢
      have hne : (iteration net sub question servers).1 ≠ .ret .outOfFuel := by
        rw [hb]
        intro he
        cases he
      have hb' := iteration_agree net sub sub' question hsub servers hne
      rw [hb] at hb'
      rw [forLoop_next _ n servers servers' events hb', ih servers' h]

theorem dnsQuery_fuel_succ (net : Net) :
    ∀ (fuel : Nat) (servers : List IP) (question : Question),
      (dnsQuery net fuel servers question).result ≠ .outOfFuel →
      dnsQuery net (fuel + 1) servers question = dnsQuery net fuel servers question := by
  intro fuel
  induction fuel with
  | zero => intro servers question h; exact absurd rfl h
  | succ fuel ih =>
    intro servers question h
    rw [dnsQuery_succ] at h ⊢
    exact forLoop_agree net _ _ question (fun q hq => ih getRootServers q hq) 3 servers h

/-- A run that ends within its fuel is the run of every larger fuel. -/
theorem dnsQuery_fuel_mono (net : Net) (fuel extra : Nat) (servers : List IP)
    (question : Question)
    (h : (dnsQuery net fuel servers question).result ≠ .outOfFuel) :
    dnsQuery net (fuel + extra) servers question = dnsQuery net fuel servers question := by
  induction extra with
  | zero => rfl
  | succ extra ih =>
    have h' : (dnsQuery net (fuel + extra) servers question).result ≠ .outOfFuel := by
      rw [ih]; exact h
    rw [← Nat.add_assoc, dnsQuery_fuel_succ net (fuel + extra) servers question h', ih]

/-! ## C1 -/

/-- C1: if the response to a query that `dnsQuery` issues within its budget of
three passes (the query of pass `k + 1`, `k < 3`, sent to the servers `s`
reached after `k` completed passes) has the authoritative flag set, then
`dnsQuery` returns, without error, the message with `Response = true`,
`RCode = Success` and exactly the answer records of that response, and the
query is the last call it makes. -/
theorem dnsQuery_authoritative (net : Net) (fuel : Nat) (servers : List IP)
    (question : Question) (k : Nat) (s : List IP) (pre : List Event)
    (dnsAnswer : Parser) (header : Header) (answers : List Resource)
    (hk : k < 3)
    (hreach : hopsCompleted (body net fuel question) k servers = some (s, pre))
    (hquery : outgoingDnsQuery net s question = .ok (dnsAnswer, header))
    (hanswers : dnsAnswer.AllAnswers = .ok answers)
    (hauth : header.Authoritative = true) :
    dnsQuery net (fuel + 1) servers question =
      ⟨.ok { Header := { Response := true, RCode := RCodeSuccess }, Answers := answers },
        pre ++ [Event.query 0 s question]⟩ := by
  apply dnsQuery_of_ret net fuel servers question k s pre _ _ hk hreach
  simp [body, iteration, hquery, hanswers, hauth]

/-- The instance of C1 at `authoritativeNet`, first pass. -/
theorem dnsQuery_authoritative_witness :
    dnsQuery authoritativeNet 1 getRootServers sampleQuestion =
      ⟨.ok { Header := { Response := true, RCode := RCodeSuccess },
             Answers := [recA "example.com." [93, 184, 216, 34], recSOA "example.com."] },
        [] ++ [Event.query 0 getRootServers sampleQuestion]⟩ :=
  dnsQuery_authoritative authoritativeNet 0 getRootServers sampleQuestion 0 getRootServers []
    (sampleReply true [recA "example.com." [93, 184, 216, 34], recSOA "example.com."] [] []).parser
    (sampleReply true [recA "example.com." [93, 184, 216, 34], recSOA "example.com."] [] []).header
    _ (by decide) rfl rfl rfl rfl

/-! ## C3 -/

/-- C3: if the response to a query that `dnsQuery` issues within its budget has
the authoritative flag unset and an empty authority section, then `dnsQuery`
returns, without error, the message with `RCode = ServerFailure`, and the query
is the last call it makes (no further query, no sub-resolution), whatever the
answer and the additional section hold. -/
theorem dnsQuery_no_authorities (net : Net) (fuel : Nat) (servers : List IP)
    (question : Question) (k : Nat) (s : List IP) (pre : List Event)
    (dnsAnswer : Parser) (header : Header) (answers : List Resource)
    (hk : k < 3)
    (hreach : hopsCompleted (body net fuel question) k servers = some (s, pre))
    (hquery : outgoingDnsQuery net s question = .ok (dnsAnswer, header))
    (hanswers : dnsAnswer.AllAnswers = .ok answers)
    (hauth : header.Authoritative = false)
    (hauthorities : dnsAnswer.AllAuthorities = .ok []) :
    dnsQuery net (fuel + 1) servers question =
      ⟨.ok { Header := { RCode := RCodeServerFailure } }, pre ++ [Event.query 0 s question]⟩ := by
  apply dnsQuery_of_ret net fuel servers question k s pre _ _ hk hreach
  simp [body, iteration, hquery, hanswers, hauth, hauthorities]

/-- The instance of C3 at `lameNet`, first pass. -/
theorem dnsQuery_no_authorities_witness :
    dnsQuery lameNet 1 getRootServers sampleQuestion =
      ⟨.ok { Header := { RCode := RCodeServerFailure } },
        [] ++ [Event.query 0 getRootServers sampleQuestion]⟩ :=
  dnsQuery_no_authorities lameNet 0 getRootServers sampleQuestion 0 getRootServers []
    (sampleReply false [recA "example.com." [1, 2, 3, 4]] [] [recA "x." [5, 6, 7, 8]]).parser
    (sampleReply false [recA "example.com." [1, 2, 3, 4]] [] [recA "x." [5, 6, 7, 8]]).header
    _ (by decide) rfl rfl rfl rfl rfl

/-! ## C2 -/

theorem topLevelQueries_append (xs ys : List Event) :
    topLevelQueries (xs ++ ys) = topLevelQueries xs ++ topLevelQueries ys := by
  induction xs with
  | nil => rfl
  | cons x xs ih =>
    cases x with
    | query d s q =>
      cases d with
      | zero => simp [topLevelQueries, ih]
      | succ d => simp [topLevelQueries, ih]
    | subResolve d q => simp [topLevelQueries, ih]

theorem topLevelQueries_lift (xs : List Event) :
    topLevelQueries (xs.map Event.lift) = [] := by
  induction xs with
  | nil => rfl
  | cons x xs ih =>
    cases x with
    | query d s q => simp [Event.lift, topLevelQueries, ih]
    | subResolve d q => simp [Event.lift, topLevelQueries, ih]

theorem topLevelQueries_resolveNameServers (sub : Question → Run) :
    ∀ (nameServers : List String) (found : Bool) (servers : List IP),
      topLevelQueries (resolveNameServers sub nameServers found servers).2 = [] := by
  intro nameServers
  induction nameServers with
  | nil => intro found servers; rfl
  | cons nameServer rest ih =>
    intro found servers
    cases found with
    | true => simpa [resolveNameServers] using ih true servers
    | false =>
      simp only [resolveNameServers, Bool.not_false, if_true]
      split
      · simp [topLevelQueries, topLevelQueries_lift]
      · simp [topLevelQueries, topLevelQueries_lift]
      · simp [topLevelQueries, topLevelQueries_append, topLevelQueries_lift, ih]

/-- Each pass through the body issues exactly one query of its own: the one to
the server list it was entered with. -/
theorem topLevelQueries_iteration (net : Net) (sub : Question → Run) (question : Question)
    (servers : List IP) :
    topLevelQueries (iteration net sub question servers).2 = [servers] := by
  unfold iteration
  simp only
  split
  · rfl
  · split
    · rfl
    · split
      · rfl
      · split
        · rfl
        · split
          · rfl
          · split
            · rfl
            · split
              · simp [topLevelQueries, topLevelQueries_resolveNameServers]
              · rfl

theorem topLevelQueries_hopsCompleted (net : Net) (sub : Question → Run) (question : Question) :
    ∀ (k : Nat) (servers s : List IP) (events : List Event),
      hopsCompleted (iteration net sub question) k servers = some (s, events) →
      (topLevelQueries events).length = k := by
  intro k
  induction k with
  | zero =>
    intro servers s events h
    simp only [hopsCompleted, Option.some.injEq, Prod.mk.injEq] at h
    obtain ⟨-, rfl⟩ := h
    rfl
  | succ k ih =>
    intro servers s events h
    unfold hopsCompleted at h
    have hq := topLevelQueries_iteration net sub question servers
    rcases hb : iteration net sub question servers with ⟨hop, first⟩
    rw [hb] at h hq
    cases hop with
    | ret r => simp at h
    | next servers' =>
      simp only at h hq
      rcases hk : hopsCompleted (iteration net sub question) k servers' with _ | ⟨s', later⟩
      · rw [hk] at h; simp at h
      · rw [hk] at h
        simp only [Option.some.injEq, Prod.mk.injEq] at h
        obtain ⟨-, rfl⟩ := h
        rw [topLevelQueries_append, hq, List.length_append, ih servers' s' later hk]
        simp; omega

/-- C2, amended: if each of the three passes of the loop completes — its query
succeeds with a non-authoritative response that carries at least one authority
record, and its delegation step yields a next server list (glue matched, or the
sub-resolution it issued returned a message) — then `dnsQuery` returns, without
error, the message with `RCode = ServerFailure`, and it has issued exactly
three queries of its own. -/
theorem dnsQuery_budget_exhausted (net : Net) (fuel : Nat) (servers : List IP)
    (question : Question) (s : List IP) (events : List Event)
    (hpasses : hopsCompleted (body net fuel question) 3 servers = some (s, events)) :
    dnsQuery net (fuel + 1) servers question =
        ⟨.ok { Header := { RCode := RCodeServerFailure } }, events⟩ ∧
      (topLevelQueries (dnsQuery net (fuel + 1) servers question).trace).length = 3 := by
  have h := forLoop_of_hopsCompleted _ 3 0 servers s events hpasses
  have hrun : dnsQuery net (fuel + 1) servers question =
      ⟨.ok { Header := { RCode := RCodeServerFailure } }, events⟩ := by
    rw [dnsQuery_succ]
    simpa [forLoop] using h
  refine ⟨hrun, ?_⟩
  rw [hrun]
  exact topLevelQueries_hopsCompleted net _ question 3 servers s events hpasses

/-- What a pass that goes round again has seen: a query that succeeded with a
non-authoritative response carrying at least one authority record. -/
theorem referral_of_next (net : Net) (sub : Question → Run) (question : Question)
    (servers servers' : List IP) (events : List Event)
    (h : iteration net sub question servers = (.next servers', events)) :
    ∃ dnsAnswer header answers authority authorities additionals,
      outgoingDnsQuery net servers question = .ok (dnsAnswer, header) ∧
      dnsAnswer.AllAnswers = .ok answers ∧
      header.Authoritative = false ∧
      dnsAnswer.AllAuthorities = .ok (authority :: authorities) ∧
      dnsAnswer.AllAdditionals = .ok additionals := by
  unfold iteration at h
  simp only at h
  split at h
  · simp at h
  · rename_i dnsAnswer header hq
    split at h
    · simp at h
    · rename_i answers hans
      split at h
      · simp at h
      · rename_i hauth
        split at h
        · simp at h
        · rename_i authorities hauths
          split at h
          · simp at h
          · rename_i hlen
            split at h
            · simp at h
            · rename_i additionals hadds
              cases authorities with
              | nil => simp at hlen
              | cons authority rest =>
                exact ⟨dnsAnswer, header, answers, authority, rest, additionals,
                  hq, hans, by simpa using hauth, hauths, hadds⟩

/-- The instance of the amended C2 at a chain of three referrals with glue. -/
theorem dnsQuery_budget_exhausted_witness :
    dnsQuery (chainNet [recA "ns.other.net." [10, 0, 0, 3]]) 1 getRootServers sampleQuestion =
        ⟨.ok { Header := { RCode := RCodeServerFailure } },
          [Event.query 0 getRootServers sampleQuestion,
           Event.query 0 [[10, 0, 0, 1]] sampleQuestion,
           Event.query 0 [[10, 0, 0, 2]] sampleQuestion]⟩ ∧
      (topLevelQueries (dnsQuery (chainNet [recA "ns.other.net." [10, 0, 0, 3]]) 1
        getRootServers sampleQuestion).trace).length = 3 :=
  dnsQuery_budget_exhausted (chainNet [recA "ns.other.net." [10, 0, 0, 3]]) 0 getRootServers
    sampleQuestion [[10, 0, 0, 3]] _ rfl

/-- C2 as stated fails: with `chainNet []` each of the three queries `dnsQuery`
issues itself succeeds with a non-authoritative response carrying one authority
record, and there are exactly three of them, yet `dnsQuery` returns an error and
no message: the third referral has no glue, and the sub-resolution of its
delegate name fails. -/
theorem budget_claim_counterexample :
    outgoingDnsQuery (chainNet []) getRootServers sampleQuestion =
        .ok ((sampleReply false [] [recNS "com." "a.gtld."]
              [recA "a.gtld." [10, 0, 0, 1]]).parser,
             { Response := true, Authoritative := false }) ∧
      outgoingDnsQuery (chainNet []) [[10, 0, 0, 1]] sampleQuestion =
        .ok ((sampleReply false [] [recNS "example.com." "ns1.example.com."]
              [recA "ns1.example.com." [10, 0, 0, 2]]).parser,
             { Response := true, Authoritative := false }) ∧
      outgoingDnsQuery (chainNet []) [[10, 0, 0, 2]] sampleQuestion =
        .ok ((sampleReply false [] [recNS "example.com." "ns.other.net."] []).parser,
             { Response := true, Authoritative := false }) ∧
      dnsQuery (chainNet []) 2 getRootServers sampleQuestion =
        ⟨.err "read udp: connection refused",
          [Event.query 0 getRootServers sampleQuestion,
           Event.query 0 [[10, 0, 0, 1]] sampleQuestion,
           Event.query 0 [[10, 0, 0, 2]] sampleQuestion,
           Event.subResolve 0 { Name := "ns.other.net.", Typ := TypeA, Class := ClassINET },
           Event.query 1 getRootServers
             { Name := "ns.other.net.", Typ := TypeA, Class := ClassINET }]⟩ ∧
      topLevelQueries (dnsQuery (chainNet []) 2 getRootServers sampleQuestion).trace =
        [getRootServers, [[10, 0, 0, 1]], [[10, 0, 0, 2]]] := by
  refine ⟨rfl, rfl, rfl, ?_, ?_⟩ <;> decide

/-! ## The glue scan -/

theorem matchNameServers_fst (name : String) (a : IP) :
    ∀ (nameServers : List String) (st : Bool × List IP),
      (matchNameServers name a nameServers st).1 = (st.1 || decide (name ∈ nameServers)) := by
  intro nameServers
  induction nameServers with
  | nil => intro st; simp [matchNameServers]
  | cons nameServer rest ih =>
    intro st
    unfold matchNameServers
    by_cases h : nameServer = name
    · simp [h, ih]
    · have h' : ¬ name = nameServer := fun e => h e.symm
      simp [h, h', ih]

theorem mem_matchNameServers (name : String) (a ip : IP) :
    ∀ (nameServers : List String) (st : Bool × List IP),
      ip ∈ (matchNameServers name a nameServers st).2 ↔
        ip ∈ st.2 ∨ (ip = a ∧ name ∈ nameServers) := by
  intro nameServers
  induction nameServers with
  | nil => intro st; simp [matchNameServers]
  | cons nameServer rest ih =>
    intro st
    unfold matchNameServers
    by_cases h : nameServer = name
    · simp only [h, beq_self_eq_true, if_true, ih, List.mem_append, List.mem_singleton,
        List.mem_cons, true_or, and_true]
      tauto
    · have h' : ¬ name = nameServer := fun e => h e.symm
      simp [h, h', ih]

theorem scanAdditionals_fst (nameServers : List String) :
    ∀ (additionals : List Resource) (st : Bool × List IP),
      ((scanAdditionals nameServers additionals st).1 = true ↔
        st.1 = true ∨ ∃ r ∈ additionals, (∃ a, r.Body = .A a) ∧ r.Name ∈ nameServers) := by
  intro additionals
  induction additionals with
  | nil => intro st; simp [scanAdditionals]
  | cons additional rest ih =>
    intro st
    unfold scanAdditionals
    cases hb : additional.Body with
    | A a =>
      simp only [ih, matchNameServers_fst, Bool.or_eq_true, decide_eq_true_eq,
        List.mem_cons, exists_eq_or_imp, hb]
      simp only [ResourceBody.A.injEq, exists_eq', true_and]
      tauto
    | NS ns => simp [ih, hb]
    | Other t d => simp [ih, hb]

theorem mem_scanAdditionals (nameServers : List String) (ip : IP) :
    ∀ (additionals : List Resource) (st : Bool × List IP),
      (ip ∈ (scanAdditionals nameServers additionals st).2 ↔
        ip ∈ st.2 ∨ ∃ r ∈ additionals, r.Body = .A ip ∧ r.Name ∈ nameServers) := by
  intro additionals
  induction additionals with
  | nil => intro st; simp [scanAdditionals]
  | cons additional rest ih =>
    intro st
    unfold scanAdditionals
    cases hb : additional.Body with
    | A a =>
      simp only [ih, mem_matchNameServers, List.mem_cons, exists_eq_or_imp, hb,
        ResourceBody.A.injEq]
      constructor
      · rintro ((h | ⟨rfl, h⟩) | h)
        · exact Or.inl h
        · exact Or.inr (Or.inl ⟨rfl, h⟩)
        · exact Or.inr (Or.inr h)
      · rintro (h | ⟨rfl, h⟩ | h)
        · exact Or.inl (Or.inl h)
        · exact Or.inl (Or.inr ⟨rfl, h⟩)
        · exact Or.inr h
    | NS ns => simp [ih, hb]
    | Other t d => simp [ih, hb]

theorem slot_iff (b : ResourceBody) (name : String) :
    name = (match b with | .NS ns => ns | _ => "") ↔
      (b = .NS name ∨ (name = "" ∧ ∀ ns, b ≠ .NS ns)) := by
  cases b with
  | A a => simp
  | NS ns =>
    constructor
    · intro h; exact Or.inl (by rw [h])
    · rintro (h | ⟨-, h⟩)
      · exact (ResourceBody.NS.inj h).symm
      · exact absurd rfl (h ns)
  | Other t d => simp

/-- The slots of `nameServers`: the targets of the NS records, and the empty
string when some authority record is not an NS record. -/
theorem mem_nameServersOf (name : String) (authorities : List Resource) :
    name ∈ nameServersOf authorities ↔
      (∃ r ∈ authorities, r.Body = .NS name) ∨
        (name = "" ∧ ∃ r ∈ authorities, ∀ ns, r.Body ≠ .NS ns) := by
  induction authorities with
  | nil => simp [nameServersOf]
  | cons authority rest ih =>
    have hcons : nameServersOf (authority :: rest) =
        (match authority.Body with | .NS ns => ns | _ => "") :: nameServersOf rest := rfl
    rw [hcons, List.mem_cons, ih, slot_iff]
    simp only [List.mem_cons, exists_eq_or_imp]
    constructor
    · rintro ((h | ⟨h1, h2⟩) | h | ⟨h1, h2⟩)
      · exact Or.inl (Or.inl h)
      · exact Or.inr ⟨h1, Or.inl h2⟩
      · exact Or.inl (Or.inr h)
      · exact Or.inr ⟨h1, Or.inr h2⟩
    · rintro ((h | h) | ⟨h1, h2 | h2⟩)
      · exact Or.inl (Or.inl h)
      · exact Or.inr (Or.inl h)
      · exact Or.inl (Or.inr ⟨h1, h2⟩)
      · exact Or.inr (Or.inr ⟨h1, h2⟩)

theorem hopsCompleted_succ (f : List IP → Hop × List Event) :
    ∀ (k : Nat) (servers s s' : List IP) (pre events : List Event),
      hopsCompleted f k servers = some (s, pre) →
      f s = (.next s', events) →
      hopsCompleted f (k + 1) servers = some (s', pre ++ events) := by
  intro k
  induction k with
  | zero =>
    intro servers s s' pre events h hf
    simp only [hopsCompleted, Option.some.injEq, Prod.mk.injEq] at h
    obtain ⟨rfl, rfl⟩ := h
    simp [hopsCompleted, hf]
  | succ k ih =>
    intro servers s s' pre events h hf
    unfold hopsCompleted at h
    rcases hb : f servers with ⟨hop, first⟩
    rw [hb] at h
    cases hop with
    | ret r => simp at h
    | next servers₁ =>
      simp only at h
      rcases hk : hopsCompleted f k servers₁ with _ | ⟨s₁, later⟩
      · rw [hk] at h; simp at h
      · rw [hk] at h
        simp only [Option.some.injEq, Prod.mk.injEq] at h
        obtain ⟨rfl, rfl⟩ := h
        have := ih servers₁ s₁ s' later events hk hf
        rw [hopsCompleted.eq_2, hb]
        simp only [this, List.append_assoc]

/-- Every pass starts with its query. -/
theorem iteration_trace_head (net : Net) (sub : Question → Run) (question : Question)
    (servers : List IP) :
    ∃ tail, (iteration net sub question servers).2 = Event.query 0 servers question :: tail := by
  unfold iteration
  simp only
  split
  · exact ⟨_, rfl⟩
  · split
    · exact ⟨_, rfl⟩
    · split
      · exact ⟨_, rfl⟩
      · split
        · exact ⟨_, rfl⟩
        · split
          · exact ⟨_, rfl⟩
          · split
            · exact ⟨_, rfl⟩
            · split
              · exact ⟨_, rfl⟩
              · exact ⟨_, rfl⟩

theorem forLoop_trace_head (net : Net) (sub : Question → Run) (question : Question)
    (n : Nat) (servers : List IP) :
    ∃ tail, (forLoop (iteration net sub question) (n + 1) servers).trace =
      Event.query 0 servers question :: tail := by
  obtain ⟨tail, ht⟩ := iteration_trace_head net sub question servers
  rcases hb : iteration net sub question servers with ⟨hop, events⟩
  rw [hb] at ht
  simp only at ht
  cases hop with
  | ret r => rw [forLoop_ret _ n servers r events hb]; exact ⟨tail, ht⟩
  | next servers' =>
    rw [forLoop_next _ n servers servers' events hb]
    exact ⟨tail ++ (forLoop (iteration net sub question) n servers').trace, by simp [ht]⟩

/-- After `k + 1 < 3` completed passes the next call `dnsQuery` makes is the
query to the server list the last pass left. -/
theorem dnsQuery_next_query (net : Net) (fuel : Nat) (servers : List IP) (question : Question)
    (k : Nat) (s : List IP) (events : List Event) (hk : k < 3)
    (hreach : hopsCompleted (body net fuel question) k servers = some (s, events)) :
    ∃ tail, (dnsQuery net (fuel + 1) servers question).trace =
      events ++ Event.query 0 s question :: tail := by
  obtain ⟨n, hn⟩ : ∃ n, 3 = k + (n + 1) := ⟨2 - k, by omega⟩
  obtain ⟨tail, ht⟩ := forLoop_trace_head net
    (fun q => dnsQuery net fuel getRootServers q) question n s
  refine ⟨tail, ?_⟩
  rw [dnsQuery_succ, hn, forLoop_of_hopsCompleted _ k (n + 1) servers s events hreach]
  simp only [body] at ht ⊢
  rw [ht]

theorem resolveNameServers_found (sub : Question → Run) :
    ∀ (nameServers : List String) (servers : List IP),
      resolveNameServers sub nameServers true servers = (.next servers, []) := by
  intro nameServers
  induction nameServers with
  | nil => intro servers; rfl
  | cons nameServer rest ih => intro servers; simpa [resolveNameServers] using ih servers

/-! ## C4 -/

/-- C4: for a non-authoritative response that has NS authority records, in
which the target of every NS authority record is the owner of an A record in
the additional section (owner names, as parsed, are never empty), the pass makes
no sub-resolution, and the server list it leaves for the next query holds
exactly the addresses of the additional-section A records whose owner is the
target of an NS authority record: nothing of the previous server list, of an A
record of another owner or of a record of another type; when a pass is left,
the next call is the query to that list. -/
theorem next_servers_from_glue (net : Net) (fuel : Nat) (servers : List IP)
    (question : Question) (k : Nat) (s : List IP) (pre : List Event)
    (dnsAnswer : Parser) (header : Header) (answers authorities additionals : List Resource)
    (hreach : hopsCompleted (body net fuel question) k servers = some (s, pre))
    (hquery : outgoingDnsQuery net s question = .ok (dnsAnswer, header))
    (hanswers : dnsAnswer.AllAnswers = .ok answers)
    (hauth : header.Authoritative = false)
    (hauthorities : dnsAnswer.AllAuthorities = .ok authorities)
    (hadditionals : dnsAnswer.AllAdditionals = .ok additionals)
    (hns : ∃ r ∈ authorities, ∃ ns, r.Body = .NS ns)
    (hcovered : ∀ r ∈ authorities, ∀ ns, r.Body = .NS ns →
      ∃ g ∈ additionals, g.Name = ns ∧ ∃ a, g.Body = .A a)
    (hnames : ∀ g ∈ additionals, g.Name ≠ "") :
    ∃ servers',
      hopsCompleted (body net fuel question) (k + 1) servers =
          some (servers', pre ++ [Event.query 0 s question]) ∧
        (∀ ip, ip ∈ servers' ↔
          ∃ g ∈ additionals, g.Body = .A ip ∧ ∃ r ∈ authorities, r.Body = .NS g.Name) ∧
        (k + 1 < 3 → ∃ tail, (dnsQuery net (fuel + 1) servers question).trace =
          pre ++ [Event.query 0 s question] ++ Event.query 0 servers' question :: tail) := by
  obtain ⟨r, hr, ns, hrns⟩ := hns
  obtain ⟨g, hg, hgname, a, hga⟩ := hcovered r hr ns hrns
  have hfound : (scanAdditionals (nameServersOf authorities) additionals (false, [])).1 = true := by
    rw [scanAdditionals_fst]
    refine Or.inr ⟨g, hg, ⟨a, hga⟩, ?_⟩
    rw [mem_nameServersOf]
    exact Or.inl ⟨r, hr, by rw [hgname]; exact hrns⟩
  have hlen : authorities.length ≠ 0 := by
    intro h0
    rw [List.length_eq_zero] at h0
    rw [h0] at hr
    simp at hr
  have hbody : body net fuel question s =
      (.next (scanAdditionals (nameServersOf authorities) additionals (false, [])).2,
        [Event.query 0 s question]) := by
    simp [body, iteration, hquery, hanswers, hauth, hauthorities, hadditionals, hfound, hlen]
  have hnext := hopsCompleted_succ _ k servers s _ pre _ hreach hbody
  refine ⟨_, hnext, ?_, ?_⟩
  · intro ip
    rw [mem_scanAdditionals]
    constructor
    · rintro (h | ⟨g', hg', hb', hmem⟩)
      · simp at h
      · rw [mem_nameServersOf] at hmem
        rcases hmem with hmem | ⟨hempty, -⟩
        · exact ⟨g', hg', hb', hmem⟩
        · exact absurd hempty (hnames g' hg')
    · rintro ⟨g', hg', hb', hmem⟩
      exact Or.inr ⟨g', hg', hb', (mem_nameServersOf _ _).2 (Or.inl hmem)⟩
  · intro hk
    exact dnsQuery_next_query net fuel servers question (k + 1) _ _ hk hnext

/-- The instance of C4 at the first referral of `chainNet`. -/
theorem next_servers_from_glue_witness :
    ∃ servers',
      hopsCompleted (body (chainNet []) 0 sampleQuestion) (0 + 1) getRootServers =
          some (servers', [] ++ [Event.query 0 getRootServers sampleQuestion]) ∧
        (∀ ip, ip ∈ servers' ↔
          ∃ g ∈ [recA "a.gtld." [10, 0, 0, 1]], g.Body = .A ip ∧
            ∃ r ∈ [recNS "com." "a.gtld."], r.Body = .NS g.Name) ∧
        (0 + 1 < 3 → ∃ tail, (dnsQuery (chainNet []) (0 + 1) getRootServers sampleQuestion).trace =
          [] ++ [Event.query 0 getRootServers sampleQuestion] ++
            Event.query 0 servers' sampleQuestion :: tail) :=
  next_servers_from_glue (chainNet []) 0 getRootServers sampleQuestion 0 getRootServers []
    (sampleReply false [] [recNS "com." "a.gtld."] [recA "a.gtld." [10, 0, 0, 1]]).parser
    { Response := true, Authoritative := false } [] _ _ rfl rfl rfl rfl rfl rfl
    ⟨recNS "com." "a.gtld.", by simp, "a.gtld.", rfl⟩
    (by
      intro r hr ns hrns
      simp only [List.mem_singleton] at hr
      subst hr
      exact ⟨recA "a.gtld." [10, 0, 0, 1], by simp, (ResourceBody.NS.inj hrns), _, rfl⟩)
    (by
      intro g hg
      simp only [List.mem_singleton] at hg
      subst hg
      decide)

/-! ## C5 -/

/-- C5, amended: for a non-authoritative response whose authority section
starts with an NS record for the delegate `h1` and whose additional section
holds no A record owned by the target of any NS authority record (owner names,
as parsed, are never empty), the pass makes exactly one sub-resolution: that of
the A record of `h1`, started from the root servers.  When it returns a message,
the server list left for the next query is the list of the A-record addresses
among that message's answers, whatever other delegates the authority section
names; when a pass is left, the next call is the query to that list. -/
theorem next_servers_from_sub_resolution (net : Net) (fuel : Nat) (servers : List IP)
    (question : Question) (k : Nat) (s : List IP) (pre : List Event)
    (dnsAnswer : Parser) (header : Header) (answers : List Resource)
    (first : Resource) (authorities additionals : List Resource) (h1 : String)
    (response : Message) (subtrace : List Event)
    (hreach : hopsCompleted (body net fuel question) k servers = some (s, pre))
    (hquery : outgoingDnsQuery net s question = .ok (dnsAnswer, header))
    (hanswers : dnsAnswer.AllAnswers = .ok answers)
    (hauth : header.Authoritative = false)
    (hauthorities : dnsAnswer.AllAuthorities = .ok (first :: authorities))
    (hfirst : first.Body = .NS h1)
    (hadditionals : dnsAnswer.AllAdditionals = .ok additionals)
    (hnoglue : ∀ g ∈ additionals, ∀ a, g.Body = .A a →
      ∀ r ∈ first :: authorities, r.Body ≠ .NS g.Name)
    (hnames : ∀ g ∈ additionals, g.Name ≠ "")
    (hsub : dnsQuery net fuel getRootServers { Name := h1, Typ := TypeA, Class := ClassINET } =
      ⟨.ok response, subtrace⟩) :
    hopsCompleted (body net fuel question) (k + 1) servers =
        some (aAddresses response.Answers,
          pre ++ ([Event.query 0 s question,
            Event.subResolve 0 { Name := h1, Typ := TypeA, Class := ClassINET }] ++
            subtrace.map Event.lift)) ∧
      (k + 1 < 3 → ∃ tail, (dnsQuery net (fuel + 1) servers question).trace =
        pre ++ ([Event.query 0 s question,
            Event.subResolve 0 { Name := h1, Typ := TypeA, Class := ClassINET }] ++
            subtrace.map Event.lift) ++
          Event.query 0 (aAddresses response.Answers) question :: tail) := by
  have hnot : ¬ (scanAdditionals (nameServersOf (first :: authorities)) additionals
      (false, [])).1 = true := by
    rw [scanAdditionals_fst]
    rintro (h | ⟨g, hg, ⟨a, hga⟩, hmem⟩)
    · simp at h
    · rw [mem_nameServersOf] at hmem
      rcases hmem with ⟨r, hr, hrns⟩ | ⟨hempty, -⟩
      · exact hnoglue g hg a hga r hr hrns
      · exact hnames g hg hempty
  have hnone : ∀ ip, ip ∉ (scanAdditionals (nameServersOf (first :: authorities)) additionals
      (false, [])).2 := by
    intro ip hip
    rw [mem_scanAdditionals] at hip
    rcases hip with h | ⟨g, hg, hga, hmem⟩
    · simp at h
    · rw [mem_nameServersOf] at hmem
      rcases hmem with ⟨r, hr, hrns⟩ | ⟨hempty, -⟩
      · exact hnoglue g hg ip hga r hr hrns
      · exact hnames g hg hempty
  have hnil : (scanAdditionals (nameServersOf (first :: authorities)) additionals
      (false, [])).2 = [] := List.eq_nil_iff_forall_not_mem.2 hnone
  have hfalse : (scanAdditionals (nameServersOf (first :: authorities)) additionals
      (false, [])).1 = false := by simpa using hnot
  have hslots : nameServersOf (first :: authorities) = h1 :: nameServersOf authorities := by
    simp [nameServersOf, hfirst]
  have hbody : body net fuel question s =
      (.next (aAddresses response.Answers),
        [Event.query 0 s question,
          Event.subResolve 0 { Name := h1, Typ := TypeA, Class := ClassINET }] ++
          subtrace.map Event.lift) := by
    simp only [body, iteration, hquery, hanswers, hauth, hauthorities, hadditionals]
    rw [hslots] at hfalse hnil ⊢
    simp only [hfalse, hnil]
    simp only [resolveNameServers, hsub, resolveNameServers_found]
    simp
  have hnext := hopsCompleted_succ _ k servers s _ pre _ hreach hbody
  refine ⟨hnext, ?_⟩
  intro hk
  exact dnsQuery_next_query net fuel servers question (k + 1) _ _ hk hnext

/-- The instance of the amended C5 at `twoNsNet`, first pass. -/
theorem next_servers_from_sub_resolution_witness :
    hopsCompleted (body twoNsNet 1 sampleQuestion) (0 + 1) getRootServers =
        some (aAddresses [recA "a.ns." [10, 0, 0, 1]],
          [] ++ ([Event.query 0 getRootServers sampleQuestion,
            Event.subResolve 0 { Name := "a.ns.", Typ := TypeA, Class := ClassINET }] ++
            [Event.query 0 getRootServers
              { Name := "a.ns.", Typ := TypeA, Class := ClassINET }].map Event.lift)) ∧
      (0 + 1 < 3 → ∃ tail, (dnsQuery twoNsNet (1 + 1) getRootServers sampleQuestion).trace =
        [] ++ ([Event.query 0 getRootServers sampleQuestion,
            Event.subResolve 0 { Name := "a.ns.", Typ := TypeA, Class := ClassINET }] ++
            [Event.query 0 getRootServers
              { Name := "a.ns.", Typ := TypeA, Class := ClassINET }].map Event.lift) ++
          Event.query 0 (aAddresses [recA "a.ns." [10, 0, 0, 1]]) sampleQuestion :: tail) :=
  next_servers_from_sub_resolution twoNsNet 1 getRootServers sampleQuestion 0 getRootServers []
    (sampleReply false [] [recNS "example.com." "a.ns.", recNS "example.com." "b.ns."] []).parser
    { Response := true, Authoritative := false } []
    (recNS "example.com." "a.ns.") [recNS "example.com." "b.ns."] [] "a.ns."
    { Header := { Response := true, RCode := RCodeSuccess }
      Answers := [recA "a.ns." [10, 0, 0, 1]] }
    [Event.query 0 getRootServers { Name := "a.ns.", Typ := TypeA, Class := ClassINET }]
    rfl rfl rfl rfl rfl rfl rfl (by simp) (by simp) (by decide)

/-- C5 as stated fails: every server refers `example.com.` to `a.ns.` and
`b.ns.` without glue; the sub-resolution of `b.ns.` would yield 10.0.0.2, but
`dnsQuery` resolves `a.ns.` only, and the server list of its next query is
10.0.0.1 alone. -/
theorem sub_resolution_claim_counterexample :
    outgoingDnsQuery twoNsNet getRootServers sampleQuestion =
        .ok ((sampleReply false []
              [recNS "example.com." "a.ns.", recNS "example.com." "b.ns."] []).parser,
             { Response := true, Authoritative := false }) ∧
      dnsQuery twoNsNet 1 getRootServers { Name := "b.ns.", Typ := TypeA, Class := ClassINET } =
        ⟨.ok { Header := { Response := true, RCode := RCodeSuccess }
               Answers := [recA "b.ns." [10, 0, 0, 2]] },
          [Event.query 0 getRootServers { Name := "b.ns.", Typ := TypeA, Class := ClassINET }]⟩ ∧
      hopsCompleted (body twoNsNet 1 sampleQuestion) 1 getRootServers =
        some ([[10, 0, 0, 1]],
          [Event.query 0 getRootServers sampleQuestion,
           Event.subResolve 0 { Name := "a.ns.", Typ := TypeA, Class := ClassINET },
           Event.query 1 getRootServers { Name := "a.ns.", Typ := TypeA, Class := ClassINET }]) ∧
      (dnsQuery twoNsNet 2 getRootServers sampleQuestion).trace =
        [Event.query 0 getRootServers sampleQuestion,
         Event.subResolve 0 { Name := "a.ns.", Typ := TypeA, Class := ClassINET },
         Event.query 1 getRootServers { Name := "a.ns.", Typ := TypeA, Class := ClassINET },
         Event.query 0 [[10, 0, 0, 1]] sampleQuestion,
         Event.subResolve 0 { Name := "a.ns.", Typ := TypeA, Class := ClassINET },
         Event.query 1 getRootServers { Name := "a.ns.", Typ := TypeA, Class := ClassINET },
         Event.query 0 [[10, 0, 0, 1]] sampleQuestion,
         Event.subResolve 0 { Name := "a.ns.", Typ := TypeA, Class := ClassINET },
         Event.query 1 getRootServers { Name := "a.ns.", Typ := TypeA, Class := ClassINET }] := by
  refine ⟨rfl, ?_, ?_, ?_⟩ <;> decide

/-! ## C6 -/

theorem outgoingDnsQuery_nil (net : Net) (question : Question) :
    ∃ e, outgoingDnsQuery net [] question = .error e ∧
      ∀ r buf, net.randInt (int64OfUint16 maxUint16) = .ok r →
        net.pack (queryMessage r.val question) = .ok buf → e = "no servers available" := by
  unfold outgoingDnsQuery
  cases hr : net.randInt (int64OfUint16 maxUint16) with
  | error e => exact ⟨e, rfl, by intro r buf h; cases h⟩
  | ok r =>
    simp only
    cases hp : net.pack (queryMessage r.val question) with
    | error e => exact ⟨_, rfl, by intro r' buf h h'; cases h; rw [hp] at h'; cases h'⟩
    | ok buf => exact ⟨_, rfl, by intro _ _ _ _; rfl⟩

/-- C6, amended: when a pass leaves the next server list empty and the budget
is not used up (`k < 3` passes are done), the next query fails before anything
is sent, with `no servers available` unless the random draw or the packing
fails first, and `dnsQuery` returns that error and no message; only when the
third pass leaves the list empty does `dnsQuery` return the message with
`RCode = ServerFailure`. -/
theorem dnsQuery_empty_server_list (net : Net) (fuel : Nat) (servers : List IP)
    (question : Question) (k : Nat) (pre : List Event)
    (hreach : hopsCompleted (body net fuel question) k servers = some ([], pre)) :
    (k < 3 → ∃ e,
        dnsQuery net (fuel + 1) servers question =
          ⟨.err e, pre ++ [Event.query 0 [] question]⟩ ∧
        ∀ r buf, net.randInt (int64OfUint16 maxUint16) = .ok r →
          net.pack (queryMessage r.val question) = .ok buf → e = "no servers available") ∧
      (k = 3 → dnsQuery net (fuel + 1) servers question =
        ⟨.ok { Header := { RCode := RCodeServerFailure } }, pre⟩) := by
  constructor
  · intro hk
    obtain ⟨e, he, hmsg⟩ := outgoingDnsQuery_nil net question
    refine ⟨e, ?_, hmsg⟩
    apply dnsQuery_of_ret net fuel servers question k [] pre _ _ hk hreach
    simp [body, iteration, he]
  · intro hk
    subst hk
    have h := forLoop_of_hopsCompleted _ 3 0 servers [] pre hreach
    rw [dnsQuery_succ]
    simpa [forLoop] using h

/-- The instance of the amended C6 at `lameDelegationNet`, after the first pass. -/
theorem dnsQuery_empty_server_list_witness :
    (1 < 3 → ∃ e,
        dnsQuery lameDelegationNet (1 + 1) getRootServers sampleQuestion =
          ⟨.err e,
            [Event.query 0 getRootServers sampleQuestion,
             Event.subResolve 0 { Name := "a.ns.", Typ := TypeA, Class := ClassINET },
             Event.query 1 getRootServers { Name := "a.ns.", Typ := TypeA, Class := ClassINET }] ++
            [Event.query 0 [] sampleQuestion]⟩ ∧
        ∀ r buf, lameDelegationNet.randInt (int64OfUint16 maxUint16) = .ok r →
          lameDelegationNet.pack (queryMessage r.val sampleQuestion) = .ok buf →
          e = "no servers available") ∧
      (1 = 3 → dnsQuery lameDelegationNet (1 + 1) getRootServers sampleQuestion =
        ⟨.ok { Header := { RCode := RCodeServerFailure } },
          [Event.query 0 getRootServers sampleQuestion,
           Event.subResolve 0 { Name := "a.ns.", Typ := TypeA, Class := ClassINET },
           Event.query 1 getRootServers
             { Name := "a.ns.", Typ := TypeA, Class := ClassINET }]⟩) :=
  dnsQuery_empty_server_list lameDelegationNet 1 getRootServers sampleQuestion 1 _ (by decide)

/-- C6 as stated fails: every server refers `example.com.` to `a.ns.` without
glue, and the sub-resolution of `a.ns.` returns the message with
`RCode = ServerFailure`, which has no answers; the next server list is empty,
and `dnsQuery` returns the error `no servers available` and no message. -/
theorem empty_delegation_claim_counterexample :
    outgoingDnsQuery lameDelegationNet getRootServers sampleQuestion =
        .ok ((sampleReply false [] [recNS "example.com." "a.ns."] []).parser,
             { Response := true, Authoritative := false }) ∧
      (dnsQuery lameDelegationNet 1 getRootServers
          { Name := "a.ns.", Typ := TypeA, Class := ClassINET }).result =
        .ok { Header := { RCode := RCodeServerFailure } } ∧
      hopsCompleted (body lameDelegationNet 1 sampleQuestion) 1 getRootServers =
        some ([],
          [Event.query 0 getRootServers sampleQuestion,
           Event.subResolve 0 { Name := "a.ns.", Typ := TypeA, Class := ClassINET },
           Event.query 1 getRootServers { Name := "a.ns.", Typ := TypeA, Class := ClassINET }]) ∧
      dnsQuery lameDelegationNet 2 getRootServers sampleQuestion =
        ⟨.err "no servers available",
          [Event.query 0 getRootServers sampleQuestion,
           Event.subResolve 0 { Name := "a.ns.", Typ := TypeA, Class := ClassINET },
           Event.query 1 getRootServers { Name := "a.ns.", Typ := TypeA, Class := ClassINET },
           Event.query 0 [] sampleQuestion]⟩ := by
  refine ⟨rfl, ?_, ?_, ?_⟩ <;> decide

/-! ## C7 -/

/-- C7, amended: the match of delegate names against glue is exact, hence
case-sensitive: the scan of the additional section finds glue, and takes an
address, exactly for the A records whose owner name is equal, as a string, to
the slot of an authority record in `nameServers`; a name that differs from
every slot, be it only in the case of its letters, contributes nothing. -/
theorem glue_match_is_exact (authorities additionals : List Resource) :
    (∀ ip, ip ∈ (scanAdditionals (nameServersOf authorities) additionals (false, [])).2 ↔
        ∃ g ∈ additionals, g.Body = .A ip ∧ g.Name ∈ nameServersOf authorities) ∧
      ((scanAdditionals (nameServersOf authorities) additionals (false, [])).1 = true ↔
        ∃ g ∈ additionals, (∃ a, g.Body = .A a) ∧ g.Name ∈ nameServersOf authorities) := by
  constructor
  · intro ip
    rw [mem_scanAdditionals]
    simp
  · rw [scanAdditionals_fst]
    simp

/-- C7 as stated fails: the glue for `ns1.example.com.` is not matched to the
NS target `NS1.Example.com.`, while it is matched to the target
`ns1.example.com.`. -/
theorem case_insensitive_claim_counterexample :
    scanAdditionals (nameServersOf [recNS "example.com." "NS1.Example.com."])
        [recA "ns1.example.com." [10, 0, 0, 1]] (false, []) = (false, []) ∧
      scanAdditionals (nameServersOf [recNS "example.com." "ns1.example.com."])
        [recA "ns1.example.com." [10, 0, 0, 1]] (false, []) = (true, [[10, 0, 0, 1]]) := by
  decide

/-! ## C8 -/

/-- C8: when the inbound packet parses to a header and a first question, and
`dnsQuery` on the root servers returns the message `m` for that question, the
message `handlePacket` packs, and writes back when packing succeeds, is `m` with
the transaction id of the inbound header: same `Response`, `RCode` and
`Answers`, and every other field. -/
theorem handlePacket_echoes_id (net : Net) (fuel : Nat) (addr : String) (buf : Bytes)
    (header : Header) (question : Question) (m : Message)
    (hstart : net.start buf = .ok header)
    (hquestion : net.question buf = .ok question)
    (hquery : (dnsQuery net fuel getRootServers question).result = .ok m) :
    ∃ reply : Message,
      reply.Header.ID = header.ID ∧
      reply.Header.Response = m.Header.Response ∧
      reply.Header.RCode = m.Header.RCode ∧
      reply.Answers = m.Answers ∧
      reply = { m with Header := { m.Header with ID := header.ID } } ∧
      handlePacket net fuel addr buf =
        match net.pack reply with
        | .error e => .failed e
        | .ok responseBuffer =>
          match net.writeTo responseBuffer addr with
          | .error e => .failed e
          | .ok _ => .wrote reply responseBuffer addr := by
  refine ⟨{ m with Header := { m.Header with ID := header.ID } }, rfl, rfl, rfl, rfl, rfl, ?_⟩
  simp only [handlePacket, hstart, hquestion, hquery]

/-- The instance of C8 at `authoritativeNet` and a packet with transaction id 4242. -/
theorem handlePacket_echoes_id_witness :
    ∃ reply : Message,
      reply.Header.ID = 4242 ∧
      reply.Header.Response = true ∧
      reply.Header.RCode = RCodeSuccess ∧
      reply.Answers = [recA "example.com." [93, 184, 216, 34], recSOA "example.com."] ∧
      reply = { ({ Header := { Response := true, RCode := RCodeSuccess },
                   Answers := [recA "example.com." [93, 184, 216, 34], recSOA "example.com."] } :
                  Message) with
                Header := { ({ Response := true, RCode := RCodeSuccess } : Header) with
                  ID := 4242 } } ∧
      handlePacket authoritativeNet 1 "192.0.2.7:5353" [4242, 1] =
        match authoritativeNet.pack reply with
        | .error e => .failed e
        | .ok responseBuffer =>
          match authoritativeNet.writeTo responseBuffer "192.0.2.7:5353" with
          | .error e => .failed e
          | .ok _ => .wrote reply responseBuffer "192.0.2.7:5353" :=
  handlePacket_echoes_id authoritativeNet 1 "192.0.2.7:5353" [4242, 1]
    { ID := 4242 } sampleQuestion
    { Header := { Response := true, RCode := RCodeSuccess },
      Answers := [recA "example.com." [93, 184, 216, 34], recSOA "example.com."] }
    rfl rfl (by decide)

/-! ## C9 -/

theorem referralNet_query (servers : List IP) (question : Question) :
    outgoingDnsQuery referralNet (getRootServers ++ servers) question =
      .ok ((sampleReply false [] [recNS "example." "ns.example."] []).parser,
           { Response := true, Authoritative := false }) := rfl

/-- One level of the run against `referralNet`: the query, the sub-resolution
of the delegate, and what the nested invocation does before its fuel ends. -/
theorem referralNet_step (fuel : Nat) (question : Question)
    (hr : (dnsQuery referralNet fuel getRootServers delegateQuestion).result = .outOfFuel) :
    dnsQuery referralNet (fuel + 1) getRootServers question =
      ⟨.outOfFuel,
        Event.query 0 getRootServers question :: Event.subResolve 0 delegateQuestion ::
          (dnsQuery referralNet fuel getRootServers delegateQuestion).trace.map Event.lift⟩ := by
  have hq := referralNet_query [] question
  rw [List.append_nil] at hq
  have hbody : body referralNet fuel question getRootServers =
      (.ret .outOfFuel,
        Event.query 0 getRootServers question :: Event.subResolve 0 delegateQuestion ::
          (dnsQuery referralNet fuel getRootServers delegateQuestion).trace.map Event.lift) := by
    simp only [body, iteration, hq, sampleReply]
    simp [scanAdditionals, nameServersOf, recNS, resolveNameServers, delegateQuestion] at hr ⊢
    simp [hr]
  rw [dnsQuery_succ, forLoop_ret _ 2 getRootServers _ _ hbody]

theorem referralNet_outOfFuel :
    ∀ (fuel : Nat) (question : Question),
      (dnsQuery referralNet fuel getRootServers question).result = .outOfFuel := by
  intro fuel
  induction fuel with
  | zero => intro question; rfl
  | succ fuel ih =>
    intro question
    rw [referralNet_step fuel question (ih delegateQuestion)]

theorem referralNet_trace (fuel : Nat) (question : Question) :
    (dnsQuery referralNet (fuel + 1) getRootServers question).trace =
      Event.query 0 getRootServers question :: Event.subResolve 0 delegateQuestion ::
        (dnsQuery referralNet fuel getRootServers delegateQuestion).trace.map Event.lift := by
  rw [referralNet_step fuel question (referralNet_outOfFuel fuel delegateQuestion)]

theorem referralNet_depth :
    ∀ (n : Nat) (question : Question),
      Event.query (n + 1) getRootServers delegateQuestion ∈
        (dnsQuery referralNet (n + 2) getRootServers question).trace := by
  intro n
  induction n with
  | zero =>
    intro question
    rw [referralNet_trace, referralNet_trace]
    simp [Event.lift]
  | succ n ih =>
    intro question
    rw [referralNet_trace]
    refine List.mem_cons_of_mem _ (List.mem_cons_of_mem _ ?_)
    exact List.mem_map.2 ⟨_, ih delegateQuestion, rfl⟩

/-- C9: the budget of three passes does not bound the nesting of
sub-resolutions.  Against `referralNet`, which answers every query with a
non-authoritative response carrying one NS authority record and no additional
records, `dnsQuery` started on the root servers runs out of fuel whatever the
fuel, and for every `n` a run with enough fuel issues a query from an invocation
nested `n + 1` deep. -/
theorem dnsQuery_nesting_unbounded (question : Question) :
    (∀ fuel, (dnsQuery referralNet fuel getRootServers question).result = .outOfFuel) ∧
      (∀ n, ∃ fuel, ∃ e ∈ (dnsQuery referralNet fuel getRootServers question).trace,
        e = Event.query (n + 1) getRootServers delegateQuestion ∧ n < e.depth) :=
  ⟨fun fuel => referralNet_outOfFuel fuel question,
    fun n => ⟨n + 2, _, referralNet_depth n question, rfl, Nat.lt_succ_self n⟩⟩

/-! ## C10 -/

/-- C10: the exclusive bound `outgoingDnsQuery` passes to the random source is
`^uint16(0) = 65535`; for every draw `r` below it the transaction id of the
query message is `r` itself, so it is at most 65534 and never 65535, and every
id up to 65534 is the id of some draw. -/
theorem transaction_id_range (question : Question) :
    int64OfUint16 maxUint16 = 65535 ∧
      (∀ r : Fin (int64OfUint16 maxUint16),
        (queryMessage r.val question).Header.ID = r.val ∧
        (queryMessage r.val question).Header.ID ≤ 65534 ∧
        (queryMessage r.val question).Header.ID ≠ 65535) ∧
      (∀ id : Fin 65535, ∃ r : Fin (int64OfUint16 maxUint16),
        (queryMessage r.val question).Header.ID = id.val) := by
  have hbound : int64OfUint16 maxUint16 = 65535 := by decide
  have hid : ∀ r : Nat, r < 65535 → (queryMessage r question).Header.ID = r := by
    intro r hr
    simp only [queryMessage, uint16OfBig]
    omega
  refine ⟨hbound, ?_, ?_⟩
  · intro r
    have hr : r.val < 65535 := by have := r.isLt; omega
    rw [hid r.val hr]
    exact ⟨rfl, by omega, by omega⟩
  · intro id
    have hlt : id.val < 65535 := id.isLt
    exact ⟨⟨id.val, by omega⟩, hid id.val hlt⟩

end DnsResolver
